import Mathlib

/-!
# Verification of the `contours` package (quad-grid contour formatting)

A shallow embedding of `contours/core.py` and `contours/quad.py`.
Python float data is modelled with `ℚ` (the formatters and grid factories
only move coordinates around, compare them, and do exact arithmetic on
them); numpy arrays are modelled with `List`; Python exceptions are
modelled with `Except PyError`.
-/

/-- A 2-D vertex `(x, y)`, one row of an `Nx2` numpy vertex array. -/
abbrev Vertex : Type := ℚ × ℚ

/-- The Python exception classes that the embedded code can raise. -/
inductive PyError : Type where
  | typeError
  | valueError
  | nameError
  | indexError
deriving DecidableEq, Repr

deriving instance DecidableEq for Except

/-- `MPLPATHCODE` from `contours/core.py`: Matplotlib path codes. -/
inductive MPLPATHCODE : Type where
  | STOP
  | MOVETO
  | LINETO
  | CURVE3
  | CURVE4
  | CLOSEPOLY
deriving DecidableEq, Repr

/-- The numeric value of each path code (`IntEnum` values in the source:
`STOP = 0, MOVETO = 1, LINETO = 2, CURVE3 = 3, CURVE4 = 4, CLOSEPOLY = 79`). -/
def MPLPATHCODE.val : MPLPATHCODE → ℕ
  | .STOP => 0
  | .MOVETO => 1
  | .LINETO => 2
  | .CURVE3 => 3
  | .CURVE4 => 4
  | .CLOSEPOLY => 79

/-- Python slice `v[s:e]` on a list (non-negative bounds, clamped at the
end of the list exactly as Python slicing clamps). -/
def pySlice (v : List Vertex) (s e : ℕ) : List Vertex :=
  (v.drop s).take (e - s)

/-- The sub-array `vertices_[start:stop+1, :]` used by the formatters. -/
def ringSlice (v : List Vertex) (s t : ℕ) : List Vertex :=
  pySlice v s (t + 1)

/-- `np.nonzero(codes_ == code)[0]`: the (increasing) list of indices of
`c` holding the value `code`. -/
def scanIdx (c : List ℕ) (code : ℕ) : List ℕ :=
  (List.range c.length).filter (fun i => c.getD i 0 == code)

/-- `zip(starts, stops)` where `starts`/`stops` are the `MOVETO`/`CLOSEPOLY`
index arrays of a code array, as computed by `numpy_formatter` and
`shapely_formatter`. -/
def ringPairs (c : List ℕ) : List (ℕ × ℕ) :=
  (scanIdx c MPLPATHCODE.MOVETO.val).zip (scanIdx c MPLPATHCODE.CLOSEPOLY.val)

/-- The inner loop of `numpy_formatter` for one `(vertices_, codes_)` pair:
`for start, stop in zip(starts, stops): append(vertices_[start:stop+1, :])`. -/
def pairRings (v : List Vertex) (c : List ℕ) : List (List Vertex) :=
  (ringPairs c).map (fun p => ringSlice v p.1 p.2)

/-- `numpy_formatter` from `contours/core.py` (the level argument is unused
by the source, hence omitted): with `codes is None` it returns `vertices`
unchanged; otherwise it emits the `MOVETO..CLOSEPOLY` ring slices of every
`(vertices_, codes_)` pair, in order. -/
def numpy_formatter (vertices : List (List Vertex))
    (codes : Option (List (List ℕ))) : List (List Vertex) :=
  match codes with
  | none => vertices
  | some cs => (vertices.zip cs).flatMap (fun pc => pairRings pc.1 pc.2)

/-- The `level` argument of a formatter: a plain number for line contours,
or the `(min, max)` tuple for filled contours. -/
inductive LevelArg : Type where
  | num (x : ℚ)
  | band (lo hi : ℚ)
deriving DecidableEq, Repr

/-- The `itertools.cycle((iter(headers), iter(vertices)))` interleaving of
`matlab_formatter`: alternately take one header row and one ring block,
stopping when a `__next__` call raises `StopIteration` (header iterator
exhausted first when the lists have equal length). -/
def interleave : List Vertex → List (List Vertex) → List (List Vertex)
  | [], _ => []
  | h :: _, [] => [[h]]
  | h :: hs, r :: rs => [h] :: r :: interleave hs rs

/-- `matlab_formatter` from `contours/core.py`.  It first applies
`numpy_formatter`; for filled contours it replaces `level` by `level[0]`
(indexing a plain number raises `TypeError`; the facade never does that).
It then stacks, per ring, a header row `(ring_vertex_count, level)`
followed by the ring's vertex rows.  `np.vstack` on an empty sequence of
rows raises `ValueError`, which the model reproduces for zero rings.
A band level with `codes is None` would build a ragged array in the
source; it is unreached from the facade and modelled as `ValueError`. -/
def matlab_formatter (level : LevelArg) (vertices : List (List Vertex))
    (codes : Option (List (List ℕ))) : Except PyError (List Vertex) :=
  let rings := numpy_formatter vertices codes
  let lv : Except PyError ℚ :=
    match codes, level with
    | some _, .band lo _ => .ok lo
    | some _, .num _ => .error .typeError
    | none, .num x => .ok x
    | none, .band _ _ => .error .valueError
  match lv with
  | .error e => .error e
  | .ok l =>
    match rings with
    | [] => .error .valueError
    | _ :: _ =>
      .ok (List.flatten (interleave (rings.map (fun r => ((r.length : ℚ), l))) rings))

/-- A shapely geometry element, as produced by `shapely_formatter`. -/
inductive Geom : Type where
  | point (p : Vertex)
  | lineString (coords : List Vertex)
  | linearRing (coords : List Vertex)
  | polygon (exterior : List Vertex) (holes : List (List Vertex))
deriving DecidableEq, Repr

/-- The external geometry collaborator's `LinearRing` constructor, modelled
per the spec's collaborator contract: it fails predictably (`ValueError`)
on a degenerate ring, i.e. one with fewer than 3 coordinates (a
single-point ring, whose slice holds only the duplicated start/stop
vertex); on a valid ring it succeeds, and we record its coordinates. -/
def mkLinearRing (coords : List Vertex) : Except PyError (List Vertex) :=
  if coords.length < 3 then .error .valueError else .ok coords

/-- The ring-building list comprehension of `shapely_formatter`'s filled
branch: `[LinearRing(vertices_[start:stop+1, :]) for start, stop in
zip(starts, stops)]`.  On a `ValueError` the comprehension aborts; the
error payload is the `(start, stop)` pair at which construction failed,
which is exactly what the `except` handler reads back out of the loop
variables (Python 2.7, a declared supported version of the package, leaks
comprehension variables into the enclosing scope). -/
def ringsUntilFail (v : List Vertex) : List (ℕ × ℕ) →
    Except (ℕ × ℕ) (List (List Vertex))
  | [] => .ok []
  | (s, t) :: rest =>
    match mkLinearRing (ringSlice v s t) with
    | .error _ => .error (s, t)
    | .ok r => (ringsUntilFail v rest).map (fun rs => r :: rs)

/-- The `except ValueError` handler of `shapely_formatter`'s filled
branch, with `(s, t)` the `(start, stop)` pair at which ring construction
failed: it checks `np.any(stop - start - 1 == 0)` on that pair, drops the
whole polygon (returns `none`) when `stops[0] < starts[0] + 2`, and
otherwise rebuilds the polygon from the rings with `stop >= start + 2`
(a failure inside the rebuild comprehension is uncaught and propagates;
any non-single-point failure re-raises the original `ValueError`). -/
def exceptValueError (v : List Vertex) (c : List ℕ) (s t : ℕ) :
    Except PyError (Option Geom) :=
  if (t : ℤ) - (s : ℤ) - 1 = 0 then
    if (scanIdx c MPLPATHCODE.CLOSEPOLY.val).headD 0 <
        (scanIdx c MPLPATHCODE.MOVETO.val).headD 0 + 2 then
      .ok none
    else
      match ringsUntilFail v
          ((ringPairs c).filter (fun p => p.1 + 2 ≤ p.2)) with
      | .error _ => .error .valueError
      | .ok [] => .error .indexError
      | .ok (r0 :: rest) => .ok (some (.polygon r0 rest))
  else .error .valueError

/-- One iteration of `shapely_formatter`'s filled loop, for a single
`(vertices_, codes_)` pair: the `try` block builds the rings and appends
`Polygon(rings[0], rings[1:])` (`IndexError` on an empty ring list), and
a `ValueError` is dispatched to the `except` handler with the failing
`(start, stop)` pair. -/
def shapelyFilledPair (v : List Vertex) (c : List ℕ) :
    Except PyError (Option Geom) :=
  match ringsUntilFail v (ringPairs c) with
  | .ok [] => .error .indexError
  | .ok (r0 :: rest) => .ok (some (.polygon r0 rest))
  | .error (s, t) => exceptValueError v c s t

/-- One iteration of `shapely_formatter`'s line loop (`codes is None`),
for one `vertices_` array.  The source tests whether the first and last
vertex coincide; its "single point" branch tests `len(vertices) < 3` on
the **outer list of arrays** (not `len(vertices_)`) and then calls
`Point`, a name the module never imports (`from shapely.geometry import
LineString, LinearRing, Polygon`), so reaching it raises `NameError`.
Indexing row 0 of an empty array raises `IndexError`. -/
def shapelyLineOne (vertices : List (List Vertex)) (v : List Vertex) :
    Except PyError Geom :=
  match v.head?, v.getLast? with
  | some p, some q =>
    if p = q then
      if vertices.length < 3 then .error .nameError
      else (mkLinearRing v).map Geom.linearRing
    else .ok (.lineString v)
  | _, _ => .error .indexError

/-- `shapely_formatter` from `contours/core.py` (the level argument is
unused by the source, hence omitted). -/
def shapely_formatter (vertices : List (List Vertex))
    (codes : Option (List (List ℕ))) : Except PyError (List Geom) :=
  match codes with
  | none => vertices.mapM (shapelyLineOne vertices)
  | some cs =>
    ((vertices.zip cs).mapM (fun pc => shapelyFilledPair pc.1 pc.2)).map
      (fun els => els.filterMap id)

/-- `null_formatter` from `contours/core.py`: passes through the raw
`(level, vertices, codes)` triple. -/
def null_formatter (level : LevelArg) (vertices : List (List Vertex))
    (codes : Option (List (List ℕ))) :
    LevelArg × List (List Vertex) × Option (List (List ℕ)) :=
  (level, vertices, codes)

/-- The model of a Python value reaching `contour(level)`: the facade's
type check is `isinstance(level, numbers.Number)`. -/
inductive PyVal : Type where
  | int (n : ℤ)
  | float (q : ℚ)
  | complex (re im : ℚ)
  | str (s : String)
  | pyNone
deriving DecidableEq, Repr

/-- `isinstance(level, numbers.Number)`: `int`, `float` and `complex` are
all registered `numbers.Number` instances in Python. -/
def PyVal.isNumber : PyVal → Bool
  | .int _ => true
  | .float _ => true
  | .complex _ _ => true
  | _ => false

/-- Whether the value is a real number (`int` or `float`). -/
def PyVal.isReal : PyVal → Bool
  | .int _ => true
  | .float _ => true
  | _ => false

/-- `ContourMixin.contour` from `contours/core.py`, abstracted over the
engine (`self._contour_generator.create_contour`) and the active
formatter: a non-`numbers.Number` level raises `TypeError` before the
engine runs; otherwise the engine's line trace is passed to the formatter
as `(level, vertices)` with codes defaulting to `None`. -/
def contour {α : Type} (engine : PyVal → List (List Vertex))
    (formatter : PyVal → List (List Vertex) → Option (List (List ℕ)) → α)
    (level : PyVal) : Except PyError α :=
  if level.isNumber then .ok (formatter level (engine level) none)
  else .error .typeError

/-- `np.finfo(np.float64).min`: the most negative finite 64-bit float,
`-(2 - 2 ^ (-52)) * 2 ^ 1023`, exactly. -/
def float64min : ℚ := -(2 ^ 1024 - 2 ^ 971)

/-- `np.finfo(np.float64).max`: the most positive finite 64-bit float. -/
def float64max : ℚ := 2 ^ 1024 - 2 ^ 971

/-- `ContourMixin.filled_contour` from `contours/core.py`, abstracted over
the engine (`create_filled_contour`) and the active formatter: omitted
bounds default to `np.finfo(np.float64).min` / `.max`, and the formatter
receives the `(min, max)` pair actually used as its level argument. -/
def filled_contour {α : Type}
    (engine : ℚ → ℚ → List (List Vertex) × List (List ℕ))
    (formatter : LevelArg → List (List Vertex) → Option (List (List ℕ)) → α)
    (min? max? : Option ℚ) : α :=
  let mn := min?.getD float64min
  let mx := max?.getD float64max
  let vc := engine mn mx
  formatter (.band mn mx) vc.1 (some vc.2)

/-- `numpy .shape` of a 2-D array, modelled as the row count together with
the per-row column counts (for rectangular data this is equality of
`(rows, cols)`). -/
def shape2 (m : List (List ℚ)) : ℕ × List ℕ :=
  (m.length, m.map List.length)

/-- The engine handle built by `QuadContourGenerator.__init__`: the
`(x, y, z)` data handed to `matplotlib._contour.QuadContourGenerator`.
An `.ok` result of the constructor is a built handle; an `.error` means
the constructor raised before any handle was built. -/
structure QuadHandle : Type where
  x : List (List ℚ)
  y : List (List ℚ)
  z : List (List ℚ)
deriving DecidableEq, Repr

/-- `QuadContourGenerator.__init__` from `contours/quad.py`: raises
`TypeError` when `x.shape != z.shape` or `y.shape != z.shape`, in that
order, before the engine handle is constructed; otherwise builds the
handle from `(x, y, z)`. -/
def quadInit (x y z : List (List ℚ)) : Except PyError QuadHandle :=
  if shape2 x ≠ shape2 z then .error .typeError
  else if shape2 y ≠ shape2 z then .error .typeError
  else .ok ⟨x, y, z⟩

/-- `QuadContourGenerator.from_curvilinear`: an alias for the default
constructor. -/
def from_curvilinear (x y z : List (List ℚ)) : Except PyError QuadHandle :=
  quadInit x y z

/-- `z.shape[1]` of a (rectangular) 2-D array. -/
def cols (z : List (List ℚ)) : ℕ := (z.headD []).length

/-- `np.meshgrid(a, b, indexing='ij')`: returns `(A, B)` of shape
`(len(a), len(b))` with `A[i, j] = a[i]` and `B[i, j] = b[j]`. -/
def meshgrid_ij (a b : List ℚ) : List (List ℚ) × List (List ℚ) :=
  (a.map (fun ai => b.map (fun _ => ai)), a.map (fun _ => b))

/-- `QuadContourGenerator.from_rectilinear` from `contours/quad.py`:
after the (type-level) 1-D/2-D checks, raises `TypeError` when
`x.size != z.shape[1]` or `y.size != z.shape[0]`; otherwise runs
`y, x = np.meshgrid(y, x, indexing='ij')` and delegates to the default
constructor as `cls(x, y, z)`. -/
def from_rectilinear (x y : List ℚ) (z : List (List ℚ)) :
    Except PyError QuadHandle :=
  if x.length ≠ cols z then .error .typeError
  else if y.length ≠ z.length then .error .typeError
  else
    let m := meshgrid_ij y x
    quadInit m.2 m.1 z

/-- One axis of `np.mgrid[a : a + s * n : s]`: for `s ≠ 0` and exact
(rational) arithmetic the length is `⌈(s * n) / s⌉ = n` and the values
are `a + s * i`, for a positive as well as a negative step. -/
def mgridAxis (a s : ℚ) (n : ℕ) : List ℚ :=
  (List.range n).map (fun i : ℕ => a + s * (i : ℚ))

/-- `QuadContourGenerator.from_uniform` from `contours/quad.py`: after
the (type-level) dimension/length checks, raises `ValueError` when a step
component is zero; otherwise runs `y, x = np.mgrid[origin[0] : origin[0] +
step[0] * z.shape[0] : step[0], origin[1] : origin[1] + step[1] *
z.shape[1] : step[1]]` — so `y` varies with the row index using
`origin[0]`/`step[0]` and `x` varies with the column index using
`origin[1]`/`step[1]` — and delegates as `cls(x, y, z)`. -/
def from_uniform (z : List (List ℚ)) (origin step : ℚ × ℚ) :
    Except PyError QuadHandle :=
  if step.1 = 0 ∨ step.2 = 0 then .error .valueError
  else
    let ys := mgridAxis origin.1 step.1 z.length
    let xs := mgridAxis origin.2 step.2 (cols z)
    let yg := ys.map (fun yi => xs.map (fun _ => yi))
    let xg := ys.map (fun _ => xs)
    quadInit xg yg z

/-- The broadcast grid of the spec's rectilinear-equivalence property, in
which the row index varies `y` and the column index varies `x`: the
x-coordinate grid, `x_grid[i, j] = x[j]` with `rows` rows. -/
def broadcastGridX (x : List ℚ) (rows : ℕ) : List (List ℚ) :=
  (List.range rows).map (fun _ => x)

/-- The broadcast grid of the spec's rectilinear-equivalence property:
the y-coordinate grid, `y_grid[i, j] = y[i]` with `nCols` columns. -/
def broadcastGridY (y : List ℚ) (nCols : ℕ) : List (List ℚ) :=
  y.map (fun yi => (List.range nCols).map (fun _ => yi))

/-! ## Helper lemmas -/

theorem scanIdx_lt_length {c : List ℕ} {code i : ℕ} (h : i ∈ scanIdx c code) :
    i < c.length := by
  have := (List.mem_filter.mp h).1
  exact List.mem_range.mp this

theorem ringPairs_snd_lt_length {c : List ℕ} {p : ℕ × ℕ}
    (h : p ∈ ringPairs c) : p.2 < c.length := by
  obtain ⟨p1, p2⟩ := p
  exact scanIdx_lt_length (List.of_mem_zip h).2

theorem length_ringSlice (v : List Vertex) (s t : ℕ) :
    (ringSlice v s t).length = min (t + 1 - s) (v.length - s) := by
  simp [ringSlice, pySlice]

theorem mkLinearRing_degenerate (v : List Vertex) (s : ℕ) :
    mkLinearRing (ringSlice v s (s + 1)) = .error .valueError := by
  have h : (ringSlice v s (s + 1)).length < 3 := by
    rw [length_ringSlice]
    omega
  simp [mkLinearRing, h]

theorem mkLinearRing_proper (v : List Vertex) {s t : ℕ} (hst : s + 2 ≤ t)
    (ht : t < v.length) :
    mkLinearRing (ringSlice v s t) = .ok (ringSlice v s t) := by
  have h : ¬ (ringSlice v s t).length < 3 := by
    rw [length_ringSlice]
    omega
  simp [mkLinearRing, h]

theorem ringsUntilFail_ok (v : List Vertex) :
    ∀ ps : List (ℕ × ℕ), (∀ p ∈ ps, p.1 + 2 ≤ p.2 ∧ p.2 < v.length) →
      ringsUntilFail v ps = .ok (ps.map (fun p => ringSlice v p.1 p.2))
  | [], _ => rfl
  | (s, t) :: rest, h => by
    have hh := h (s, t) (List.mem_cons_self _ _)
    have hr := ringsUntilFail_ok v rest (fun p hp => h p (List.mem_cons_of_mem _ hp))
    simp [ringsUntilFail, mkLinearRing_proper v hh.1 hh.2, hr, Except.map]

theorem ringsUntilFail_split (v : List Vertex) :
    ∀ ps : List (ℕ × ℕ), (∀ p ∈ ps, p.1 + 1 ≤ p.2 ∧ p.2 < v.length) →
      ((∀ p ∈ ps, p.1 + 2 ≤ p.2) ∧
        ringsUntilFail v ps = .ok (ps.map (fun p => ringSlice v p.1 p.2))) ∨
      (∃ s, ringsUntilFail v ps = .error (s, s + 1))
  | [], _ => Or.inl ⟨by simp, rfl⟩
  | (s, t) :: rest, h => by
    have hh := h (s, t) (List.mem_cons_self _ _)
    by_cases hd : t = s + 1
    · subst hd
      exact Or.inr ⟨s, by simp [ringsUntilFail, mkLinearRing_degenerate v s]⟩
    · have hst : s + 2 ≤ t := by omega
      have hok := mkLinearRing_proper v hst hh.2
      rcases ringsUntilFail_split v rest
          (fun p hp => h p (List.mem_cons_of_mem _ hp)) with ⟨hall, hrest⟩ | ⟨s', herr⟩
      · refine Or.inl ⟨?_, by simp [ringsUntilFail, hok, hrest, Except.map]⟩
        intro p hp
        rcases List.mem_cons.mp hp with rfl | hp
        · exact hst
        · exact hall p hp
      · exact Or.inr ⟨s', by simp [ringsUntilFail, hok, herr, Except.map]⟩

theorem zip_cons_headD {a b : List ℕ} {p : ℕ × ℕ} {ps : List (ℕ × ℕ)}
    (h : a.zip b = p :: ps) : a.headD 0 = p.1 ∧ b.headD 0 = p.2 := by
  cases a with
  | nil => simp at h
  | cons a0 a' =>
    cases b with
    | nil => simp at h
    | cons b0 b' =>
      simp only [List.zip_cons_cons, List.cons.injEq] at h
      simp [← h.1]

/-! ## Claim theorems -/

/-- **C3.** The flat-array (numpy) formatter, when `codes is None`, returns
the vertices sequence unchanged; when codes are present it processes every
`(vertex_array, code_array)` pair in order, and for a pair whose code
array yields the position-paired `MoveTo`/`ClosePoly` index pairs
`(start_1, stop_1), ..., (start_k, stop_k)` it emits exactly `k` ring
arrays in that order, the `i`-th being the inclusive sub-range
`vertex_array[start_i : stop_i + 1]`. -/
theorem numpy_formatter_rings_spec :
    (∀ vs : List (List Vertex), numpy_formatter vs none = vs) ∧
    (∀ (vs : List (List Vertex)) (cs : List (List ℕ)),
      numpy_formatter vs (some cs) =
        (vs.zip cs).flatMap (fun pc => pairRings pc.1 pc.2)) ∧
    (∀ (v : List Vertex) (c : List ℕ),
      (pairRings v c).length = (ringPairs c).length ∧
      ∀ i : ℕ, (pairRings v c)[i]? =
        ((ringPairs c)[i]?).map (fun p => (v.drop p.1).take (p.2 + 1 - p.1))) :=
  ⟨fun _ => rfl, fun _ _ => rfl, fun v c =>
    ⟨by simp [pairRings], fun i => by
      simp [pairRings, ringSlice, pySlice, List.getElem?_map]⟩⟩

/-- **C10.** When the number of `MoveTo` codes differs from the number of
`ClosePoly` codes, the flat-array formatter raises no error (the per-pair
ring extraction is total): the index sequences are paired positionally,
the unmatched tail of the longer one is ignored, and exactly
`min(#MoveTo, #ClosePoly)` rings are emitted for that pair. -/
theorem numpy_formatter_mismatched_codes (v : List Vertex) (c : List ℕ)
    (h : (scanIdx c MPLPATHCODE.MOVETO.val).length ≠
        (scanIdx c MPLPATHCODE.CLOSEPOLY.val).length) :
    (pairRings v c).length =
      min (scanIdx c MPLPATHCODE.MOVETO.val).length
        (scanIdx c MPLPATHCODE.CLOSEPOLY.val).length ∧
    ringPairs c =
      ((scanIdx c MPLPATHCODE.MOVETO.val).take
          (min (scanIdx c MPLPATHCODE.MOVETO.val).length
            (scanIdx c MPLPATHCODE.CLOSEPOLY.val).length)).zip
        ((scanIdx c MPLPATHCODE.CLOSEPOLY.val).take
          (min (scanIdx c MPLPATHCODE.MOVETO.val).length
            (scanIdx c MPLPATHCODE.CLOSEPOLY.val).length)) ∧
    numpy_formatter [v] (some [c]) = pairRings v c := by
  refine ⟨by simp [pairRings, ringPairs], ?_, by simp [numpy_formatter]⟩
  exact List.zip_eq_zip_take_min _ _

/-- Witness for `numpy_formatter_mismatched_codes`: two `MoveTo`s but one
`ClosePoly` yield exactly one ring. -/
theorem numpy_formatter_mismatched_codes_witness :
    (pairRings [(0, 0), (1, 1), (2, 2)] [1, 1, 79]).length =
      min (scanIdx [1, 1, 79] MPLPATHCODE.MOVETO.val).length
        (scanIdx [1, 1, 79] MPLPATHCODE.CLOSEPOLY.val).length :=
  (numpy_formatter_mismatched_codes [(0, 0), (1, 1), (2, 2)] [1, 1, 79]
    (by decide)).1

/-- **C8.** `filled_contour` substitutes the most negative / most positive
representable (finite) 64-bit float for an omitted `min` / `max` before
querying the engine: the all-defaults call equals the call with the two
extreme values passed explicitly, and the `(min, max)` pair actually used
is what reaches the formatter as the level argument. -/
theorem filled_contour_default_bounds {α : Type}
    (engine : ℚ → ℚ → List (List Vertex) × List (List ℕ))
    (formatter : LevelArg → List (List Vertex) → Option (List (List ℕ)) → α) :
    filled_contour engine formatter none none =
      filled_contour engine formatter (some float64min) (some float64max) ∧
    ∀ min? max? : Option ℚ,
      filled_contour engine formatter min? max? =
        formatter (.band (min?.getD float64min) (max?.getD float64max))
          (engine (min?.getD float64min) (max?.getD float64max)).1
          (some (engine (min?.getD float64min) (max?.getD float64max)).2) :=
  ⟨rfl, fun _ _ => rfl⟩

/-- **C7, counterexample.** The claim says every non-real `level` raises a
type error with no engine call; but `contour` checks
`isinstance(level, numbers.Number)`, and a complex number is a
`numbers.Number`, so `contour(1j)` performs the engine call and returns
the formatted result instead of raising. -/
theorem contour_complex_no_type_error :
    contour (fun _ => [[(0, 0), (1, 1)]]) (fun l vs cs => (l, vs, cs))
        (.complex 0 1) =
      .ok (.complex 0 1, [[(0, 0), (1, 1)]], none) ∧
    contour (fun _ => [[(0, 0), (1, 1)]]) (fun l vs cs => (l, vs, cs))
        (.complex 0 1) ≠ .error .typeError :=
  ⟨rfl, by simp [contour, PyVal.isNumber]⟩

/-- **C7, amended.** For every argument that is not a number at all
(fails `isinstance(level, numbers.Number)`), `contour(level)` raises a
type error and performs no engine call (its result does not depend on the
engine); for every real-number level it invokes the engine's single-level
line trace and returns the active formatter applied to
`(level, vertices, None)`. -/
theorem contour_number_check {α : Type}
    (engine : PyVal → List (List Vertex))
    (formatter : PyVal → List (List Vertex) → Option (List (List ℕ)) → α)
    (level : PyVal) :
    (level.isNumber = false →
      contour engine formatter level = .error .typeError ∧
      ∀ engine2 : PyVal → List (List Vertex),
        contour engine2 formatter level = contour engine formatter level) ∧
    (level.isReal = true →
      contour engine formatter level = .ok (formatter level (engine level) none)) := by
  constructor
  · intro h
    exact ⟨by simp [contour, h], fun e2 => by simp [contour, h]⟩
  · intro h
    have hn : level.isNumber = true := by
      cases level <;> simp_all [PyVal.isReal, PyVal.isNumber]
    simp [contour, hn]

/-- Witness for `contour_number_check`: a text level raises the type
error. -/
theorem contour_number_check_witness :
    contour (fun _ => []) (fun l vs cs => (l, vs, cs)) (.str "a") =
      .error .typeError :=
  ((contour_number_check (fun _ => []) (fun l vs cs => (l, vs, cs))
    (.str "a")).1 rfl).1

/-- **C6.** Curvilinear construction succeeds (builds the engine handle
from the given grids) whenever `x`, `y`, `z` have identical shape, and
raises a shape-mismatch error — so no engine handle is built — whenever
`x.shape != z.shape` or `y.shape != z.shape`. -/
theorem from_curvilinear_shape_check (x y z : List (List ℚ)) :
    (shape2 x = shape2 z → shape2 y = shape2 z →
      from_curvilinear x y z = .ok ⟨x, y, z⟩) ∧
    (shape2 x ≠ shape2 z ∨ shape2 y ≠ shape2 z →
      from_curvilinear x y z = .error .typeError) := by
  constructor
  · intro h1 h2
    simp [from_curvilinear, quadInit, h1, h2]
  · intro h
    rcases h with h | h
    · simp [from_curvilinear, quadInit, h]
    · by_cases h1 : shape2 x = shape2 z
      · simp [from_curvilinear, quadInit, h1, h]
      · simp [from_curvilinear, quadInit, h1]

/-- Witness for `from_curvilinear_shape_check`: a 1x1 grid builds its
handle, and a mismatched pair raises. -/
theorem from_curvilinear_shape_check_witness :
    from_curvilinear [[1]] [[2]] [[3]] = .ok ⟨[[1]], [[2]], [[3]]⟩ ∧
    from_curvilinear [[1], [1]] [[2]] [[3]] = .error .typeError :=
  ⟨(from_curvilinear_shape_check [[1]] [[2]] [[3]]).1 rfl rfl,
    (from_curvilinear_shape_check [[1], [1]] [[2]] [[3]]).2
      (Or.inl (by decide))⟩

theorem flatten_interleave (f : List Vertex → Vertex) :
    ∀ rs : List (List Vertex),
      List.flatten (interleave (rs.map f) rs) =
        rs.flatMap (fun r => f r :: r)
  | [] => rfl
  | r :: rs => by
    simp only [List.map_cons, interleave, List.flatten_cons,
      List.flatMap_cons, flatten_interleave f rs]
    simp

theorem sum_map_length_succ (l : List (List Vertex)) :
    (l.map (fun r => r.length + 1)).sum = (l.map List.length).sum + l.length := by
  induction l with
  | nil => rfl
  | cons r rs ih => simp [ih]; omega

/-- **C4.** The interleaved-matrix (matlab) formatter produces the
concatenation `header_1, vertices_1, header_2, vertices_2, ...` over the
`k` rings of the flat-array result in order, each header being the row
`(ring_vertex_count, level)`; hence the matrix has `k` plus the sum of
all ring vertex counts rows, every header's second column is the level,
and for filled contours that level is the band's lower bound `level[0]`
(the upper bound is discarded).  (`np.vstack` needs at least one row, so
at least one ring is assumed.) -/
theorem matlab_formatter_layout (lo hi x : ℚ) (vertices : List (List Vertex))
    (cs : List (List ℕ)) :
    (numpy_formatter vertices (some cs) ≠ [] →
      matlab_formatter (.band lo hi) vertices (some cs) =
        .ok ((numpy_formatter vertices (some cs)).flatMap
          (fun r => ((r.length : ℚ), lo) :: r))) ∧
    ((numpy_formatter vertices (some cs)).flatMap
        (fun r => ((r.length : ℚ), lo) :: r)).length =
      (numpy_formatter vertices (some cs)).length +
        ((numpy_formatter vertices (some cs)).map List.length).sum ∧
    (vertices ≠ [] →
      matlab_formatter (.num x) vertices none =
        .ok (vertices.flatMap (fun r => ((r.length : ℚ), x) :: r))) := by
  refine ⟨?_, ?_, ?_⟩
  · intro h
    obtain ⟨r, rs, hr⟩ := List.exists_cons_of_ne_nil h
    simp only [matlab_formatter, hr]
    rw [← flatten_interleave (fun r => ((r.length : ℚ), lo)) (r :: rs)]
  · rw [List.length_flatMap]
    have hmap : List.map (List.length ∘ fun r => ((r.length : ℚ), lo) :: r)
        (numpy_formatter vertices (some cs)) =
        (numpy_formatter vertices (some cs)).map (fun r => r.length + 1) := by
      simp [Function.comp]
    rw [hmap, sum_map_length_succ]
    omega
  · intro h
    obtain ⟨r, rs, hr⟩ := List.exists_cons_of_ne_nil h
    simp only [matlab_formatter, numpy_formatter, hr]
    rw [← flatten_interleave (fun r => ((r.length : ℚ), x)) (r :: rs)]

/-- Witness for `matlab_formatter_layout`: one square ring between levels
1 and 2 yields the header row `(4, 1)` followed by the four vertex rows. -/
theorem matlab_formatter_layout_witness :
    matlab_formatter (.band 1 2) [[(0, 0), (1, 0), (1, 1), (0, 0)]]
        (some [[1, 2, 2, 79]]) =
      .ok ((numpy_formatter [[(0, 0), (1, 0), (1, 1), (0, 0)]]
          (some [[1, 2, 2, 79]])).flatMap
        (fun r => ((r.length : ℚ), 1) :: r)) :=
  (matlab_formatter_layout 1 2 0 [[(0, 0), (1, 0), (1, 1), (0, 0)]]
    [[1, 2, 2, 79]]).1 (by decide)

/-- **C5.** Rectilinear construction is equivalent to curvilinear
construction on the broadcast grid in which the row index varies `y` and
the column index varies `x` (`x_grid[i, j] = x[j]`, `y_grid[i, j] = y[i]`):
`from_rectilinear x y z` builds the same engine handle as
`from_curvilinear` on that grid, so any query (the engine call plus the
formatter) computes identical formatted output from the two results. -/
theorem from_rectilinear_broadcast_equiv (x y : List ℚ) (z : List (List ℚ))
    (hx : x.length = cols z) (hy : y.length = z.length) :
    from_rectilinear x y z =
      from_curvilinear (broadcastGridX x z.length)
        (broadcastGridY y (cols z)) z ∧
    ∀ (β : Type) (query : QuadHandle → β),
      (from_rectilinear x y z).map query =
        (from_curvilinear (broadcastGridX x z.length)
          (broadcastGridY y (cols z)) z).map query := by
  have hgx : (meshgrid_ij y x).2 = broadcastGridX x z.length := by
    show y.map (fun _ => x) = (List.range z.length).map (fun _ => x)
    rw [show (fun _ : ℚ => x) = Function.const ℚ x from rfl,
      show (fun _ : ℕ => x) = Function.const ℕ x from rfl,
      List.map_const, List.map_const, hy, List.length_range]
  have hgy : (meshgrid_ij y x).1 = broadcastGridY y (cols z) := by
    show y.map (fun yi => x.map (fun _ => yi)) =
      y.map (fun yi => (List.range (cols z)).map (fun _ => yi))
    refine List.map_congr_left (fun yi _ => ?_)
    rw [show (fun _ : ℚ => yi) = Function.const ℚ yi from rfl,
      show (fun _ : ℕ => yi) = Function.const ℕ yi from rfl,
      List.map_const, List.map_const, hx, List.length_range]
  have hmain : from_rectilinear x y z =
      from_curvilinear (broadcastGridX x z.length)
        (broadcastGridY y (cols z)) z := by
    simp only [from_rectilinear, hx, hy]
    simp only [ne_eq, not_true_eq_false, if_false, hgx, hgy]
    rfl
  exact ⟨hmain, fun β query => by rw [hmain]⟩

/-- Witness for `from_rectilinear_broadcast_equiv`: a 2x3 rectilinear grid
and its broadcast curvilinear form build the same handle. -/
theorem from_rectilinear_broadcast_equiv_witness :
    from_rectilinear [0, 1, 2] [5, 6] [[1, 2, 3], [4, 5, 6]] =
      from_curvilinear
        (broadcastGridX [0, 1, 2] (List.length [[1, 2, 3], [4, 5, 6]]))
        (broadcastGridY [5, 6] (cols [[1, 2, 3], [4, 5, 6]]))
        [[1, 2, 3], [4, 5, 6]] :=
  (from_rectilinear_broadcast_equiv [0, 1, 2] [5, 6] [[1, 2, 3], [4, 5, 6]]
    (by decide) (by decide)).1

theorem length_mgridAxis (a s : ℚ) (n : ℕ) : (mgridAxis a s n).length = n := by
  simp only [mgridAxis, List.length_map, List.length_range]

/-- **C9.** `from_uniform` consumes `origin = (a, b)` and `step = (s, t)`
in `(row, column) = (y, x)` order: the built handle's y grid is generated
by the FIRST components (`y[i, j] = a + s * i`) and its x grid by the
SECOND components (`x[i, j] = b + t * j`); consequently `z[0, 0]` sits at
coordinate `(x, y) = (b, a)` — `(x[0, 0], y[0, 0]) = (b, a)` — and not at
`(a, b)`. -/
theorem from_uniform_axis_order (z : List (List ℚ)) (a b s t : ℚ)
    (hs : s ≠ 0) (ht : t ≠ 0) (hrect : ∀ r ∈ z, r.length = cols z) :
    from_uniform z (a, b) (s, t) =
      .ok ⟨List.replicate z.length (mgridAxis b t (cols z)),
        (mgridAxis a s z.length).map (fun yi => List.replicate (cols z) yi),
        z⟩ ∧
    ∀ i j : ℕ, i < z.length → j < cols z →
      ((List.replicate z.length (mgridAxis b t (cols z)))[i]?.bind
          (fun r => r[j]?) = some (b + t * (j : ℚ)) ∧
        (((mgridAxis a s z.length).map
            (fun yi => List.replicate (cols z) yi))[i]?.bind
          (fun r => r[j]?) = some (a + s * (i : ℚ)))) := by
  have hz : z.map List.length = List.replicate z.length (cols z) := by
    rw [List.eq_replicate_iff]
    refine ⟨by simp, ?_⟩
    intro l hl
    obtain ⟨r, hr, rfl⟩ := List.mem_map.mp hl
    exact hrect r hr
  have hstep : ¬ ((s, t).1 = 0 ∨ (s, t).2 = 0) := by simp [hs, ht]
  have hxg : (mgridAxis a s z.length).map (fun _ => mgridAxis b t (cols z)) =
      List.replicate z.length (mgridAxis b t (cols z)) := by
    rw [List.map_const', length_mgridAxis]
  have hyg : (mgridAxis a s z.length).map
      (fun yi => (mgridAxis b t (cols z)).map (fun _ => yi)) =
      (mgridAxis a s z.length).map
        (fun yi => List.replicate (cols z) yi) := by
    refine List.map_congr_left (fun yi _ => ?_)
    rw [List.map_const', length_mgridAxis]
  have hX : shape2 (List.replicate z.length (mgridAxis b t (cols z))) =
      shape2 z := by
    simp [shape2, List.map_replicate, length_mgridAxis, hz]
  have hY : shape2 ((mgridAxis a s z.length).map
      (fun yi => List.replicate (cols z) yi)) = shape2 z := by
    simp only [shape2, List.length_map, length_mgridAxis, List.map_map]
    rw [show (List.length ∘ fun yi : ℚ => List.replicate (cols z) yi) =
      (fun _ : ℚ => cols z) from funext (fun yi => List.length_replicate _ _)]
    rw [List.map_const', length_mgridAxis, hz]
  have hmain : from_uniform z (a, b) (s, t) =
      .ok ⟨List.replicate z.length (mgridAxis b t (cols z)),
        (mgridAxis a s z.length).map (fun yi => List.replicate (cols z) yi),
        z⟩ := by
    show (if (s, t).1 = 0 ∨ (s, t).2 = 0
        then (.error .valueError : Except PyError QuadHandle)
        else quadInit
          ((mgridAxis a s z.length).map (fun _ => mgridAxis b t (cols z)))
          ((mgridAxis a s z.length).map
            (fun yi => (mgridAxis b t (cols z)).map (fun _ => yi))) z) = _
    rw [if_neg hstep, hxg, hyg]
    simp [quadInit, hX, hY]
  refine ⟨hmain, ?_⟩
  intro i j hi hj
  constructor
  · rw [List.getElem?_replicate, if_pos hi]
    simp [mgridAxis, List.getElem?_map, List.getElem?_range hj]
  · have hmem : (mgridAxis a s z.length)[i]? = some (a + s * (i : ℚ)) := by
      simp [mgridAxis, List.getElem?_map, List.getElem?_range hi]
    rw [List.getElem?_map, hmem]
    simp [List.getElem?_replicate, hj]

/-- Witness for `from_uniform_axis_order`: a 2x3 grid with origin
`(10, 20)` and step `(1, 2)` has `x[0, 1] = 22` and `y[1, 0] = 11`. -/
theorem from_uniform_axis_order_witness :
    from_uniform [[1, 2, 3], [4, 5, 6]] (10, 20) (1, 2) =
      .ok ⟨List.replicate 2 (mgridAxis 20 2 3),
        (mgridAxis 10 1 2).map (fun yi => List.replicate 3 yi),
        [[1, 2, 3], [4, 5, 6]]⟩ :=
  (from_uniform_axis_order [[1, 2, 3], [4, 5, 6]] 10 20 1 2 (by norm_num)
    (by norm_num) (by decide)).1

/-- **C1.** Degenerate-ring policy of the geometry (shapely) formatter on
a filled-contour `(vertex_array, code_array)` pair whose paired
`MoveTo`/`ClosePoly` spans are each either a single-point ring
(`stop = start + 1`, the ring holding just the duplicated endpoint) or a
longer ring: (1) if the first (exterior) ring is degenerate, no polygon
is emitted for the pair; (2) if the exterior is proper, the pair yields
the polygon built from the exterior plus exactly the non-degenerate
holes — only degenerate hole(s) are omitted; (3) a construction failure
at a pair that is not a single-point ring (`stop ≠ start + 1`) is
re-raised unchanged. -/
theorem shapely_filled_degenerate_policy (v : List Vertex) (c : List ℕ) :
    (∀ (s : ℕ) (rest : List (ℕ × ℕ)), ringPairs c = (s, s + 1) :: rest →
      shapelyFilledPair v c = .ok none) ∧
    (c.length = v.length →
      ∀ (s0 t0 : ℕ) (rest : List (ℕ × ℕ)), ringPairs c = (s0, t0) :: rest →
        s0 + 2 ≤ t0 → (∀ p ∈ rest, p.1 + 1 ≤ p.2) →
        shapelyFilledPair v c =
          .ok (some (.polygon (ringSlice v s0 t0)
            ((rest.filter (fun p => p.1 + 2 ≤ p.2)).map
              (fun p => ringSlice v p.1 p.2))))) ∧
    (∀ s t : ℕ, ringsUntilFail v (ringPairs c) = .error (s, t) →
      (t : ℤ) ≠ (s : ℤ) + 1 → shapelyFilledPair v c = .error .valueError) := by
  refine ⟨?_, ?_, ?_⟩
  · intro s rest hps
    have herr : ringsUntilFail v (ringPairs c) = .error (s, s + 1) := by
      rw [hps]
      simp [ringsUntilFail, mkLinearRing_degenerate v s]
    obtain ⟨hh1, hh2⟩ := zip_cons_headD
      (show (scanIdx c MPLPATHCODE.MOVETO.val).zip
        (scanIdx c MPLPATHCODE.CLOSEPOLY.val) = (s, s + 1) :: rest from hps)
    simp only at hh1 hh2
    simp only [shapelyFilledPair]
    rw [herr]
    show exceptValueError v c s (s + 1) = .ok none
    unfold exceptValueError
    rw [if_pos (by push_cast; ring), hh1, hh2, if_pos (by omega)]
  · intro hlen s0 t0 rest hps hext hall
    have hmem : ∀ p ∈ ringPairs c, p.1 + 1 ≤ p.2 ∧ p.2 < v.length := by
      intro p hp
      have hlt : p.2 < c.length := ringPairs_snd_lt_length hp
      rw [hps] at hp
      rcases List.mem_cons.mp hp with rfl | hp'
      · exact ⟨by omega, by omega⟩
      · exact ⟨hall p hp', by omega⟩
    rcases ringsUntilFail_split v (ringPairs c) hmem with ⟨hall2, hok⟩ | ⟨sd, herr⟩
    · have hfilter : rest.filter (fun p => p.1 + 2 ≤ p.2) = rest := by
        rw [List.filter_eq_self]
        intro p hp
        exact decide_eq_true
          (hall2 p (by rw [hps]; exact List.mem_cons_of_mem _ hp))
      simp only [shapelyFilledPair]
      rw [hok, hps]
      show Except.ok (some (Geom.polygon (ringSlice v s0 t0)
        (rest.map (fun p => ringSlice v p.1 p.2)))) = _
      rw [hfilter]
    · obtain ⟨hh1, hh2⟩ := zip_cons_headD
        (show (scanIdx c MPLPATHCODE.MOVETO.val).zip
          (scanIdx c MPLPATHCODE.CLOSEPOLY.val) = (s0, t0) :: rest from hps)
      simp only at hh1 hh2
      have hfilterAll : ∀ p ∈ (ringPairs c).filter (fun p => p.1 + 2 ≤ p.2),
          p.1 + 2 ≤ p.2 ∧ p.2 < v.length := by
        intro p hp
        have h2 := List.mem_filter.mp hp
        exact ⟨of_decide_eq_true h2.2, (hmem p h2.1).2⟩
      have hrebuild := ringsUntilFail_ok v _ hfilterAll
      have hfcons : (ringPairs c).filter (fun p => p.1 + 2 ≤ p.2) =
          (s0, t0) :: rest.filter (fun p => p.1 + 2 ≤ p.2) := by
        rw [hps, List.filter_cons]
        simp [hext]
      rw [hfcons] at hrebuild
      simp only [shapelyFilledPair]
      rw [herr]
      show exceptValueError v c sd (sd + 1) = _
      unfold exceptValueError
      rw [if_pos (by push_cast; ring), hh1, hh2, if_neg (by omega), hfcons,
        hrebuild]
      show Except.ok (some (Geom.polygon (ringSlice v s0 t0)
        ((rest.filter (fun p => p.1 + 2 ≤ p.2)).map
          (fun p => ringSlice v p.1 p.2)))) = _
      rfl
  · intro s t herr hne
    simp only [shapelyFilledPair]
    rw [herr]
    show exceptValueError v c s t = .error .valueError
    unfold exceptValueError
    rw [if_neg (fun h => hne (by omega))]

/-- Witness for `shapely_filled_degenerate_policy`: a pair whose single
(exterior) ring is the degenerate two-point span of codes `[1, 79]`
produces no polygon. -/
theorem shapely_filled_degenerate_policy_witness :
    shapelyFilledPair [(0, 0), (0, 0)] [1, 79] = .ok none :=
  (shapely_filled_degenerate_policy [(0, 0), (0, 0)] [1, 79]).1 0 []
    (by decide)

/-- **C2 (code bug).** The line branch of the geometry formatter is meant
to emit a point for a coincident-endpoint array with fewer than 3 points,
a closed ring for one with 3 or more, and an open line otherwise.  The
code instead tests `len(vertices) < 3` — the number of vertex **arrays**
— rather than `len(vertices_)`, and its point branch calls `Point`, a
name the module never imports.  Evaluating the embedding at the failing
inputs: a single 2-point closed contour hits the unimported `Point`
(`NameError`) instead of yielding a point; a single proper 4-point ring
also hits it instead of yielding a ring; three 2-point closed contours
are misclassified as rings and the geometry library rejects them
(`ValueError`) instead of three points.  Open lines are unaffected. -/
theorem shapely_line_point_bug :
    shapely_formatter [[(0, 0), (0, 0)]] none = .error .nameError ∧
    shapely_formatter [[(0, 0), (1, 0), (1, 1), (0, 0)]] none =
      .error .nameError ∧
    shapely_formatter [[(0, 0), (0, 0)], [(2, 2), (2, 2)], [(3, 3), (3, 3)]]
      none = .error .valueError ∧
    shapely_formatter [[(0, 0), (1, 1)]] none =
      .ok [.lineString [(0, 0), (1, 1)]] :=
  ⟨by decide, by decide, by decide, by decide⟩
